import Mathlib

/-!
Shallow embedding of the gift-card marketplace bot `src/bot.py` and
verification of the specification claims about it.

Modelling conventions (each definition cites the source lines it embeds):
* SQLite REAL money columns (Python floats parsed from decimal literals)
  are modelled as exact fractions `PyNum` (an integer numerator over a
  natural denominator; every value the program constructs has a positive
  denominator).  The program only adds, subtracts and order-compares
  amounts, never rounds, so exact fractions are a faithful model of the
  decimal arithmetic the spec describes.
* Python string helpers (`strip`, `split`, `isdigit`, `float`, slicing)
  are implemented structurally over the character list of the string.
* `created_at` timestamp columns are omitted: the program only displays
  them and uses them in `ORDER BY` clauses, i.e. presentation order;
  queries are therefore modelled as filters and the claims about query
  results are stated as membership characterisations.
* Chat I/O (`bot.send_message`, `bot.answer_callback_query`) is
  side-effect free for the store; each handler returns the new store
  state paired with an outcome value that records which message branch
  the source took.
* The schema created at startup (bot.py lines 66-98) contains only the
  tables `users`, `deposits`, `giftcards`.  The `orders` table that
  `cb_buy` inserts into is created nowhere; the store therefore carries
  `orders : Option (List OrderRow)` where `none` means the table does
  not exist and an insert into it raises `sqlite3.OperationalError`.
-/

/-- Exact-fraction model of the REAL amounts handled by the bot: the
value `num / den`.  Every amount the program constructs (defaults, parsed
decimal literals, sums, differences) has `0 < den`. -/
structure PyNum where
  num : Int
  den : Nat
  deriving DecidableEq, Repr

instance (n : Nat) : OfNat PyNum n := ⟨⟨(n : Int), 1⟩⟩

instance : Neg PyNum := ⟨fun a => ⟨-a.num, a.den⟩⟩

instance : Add PyNum :=
  ⟨fun a b => ⟨a.num * (b.den : Int) + b.num * (a.den : Int), a.den * b.den⟩⟩

instance : Sub PyNum :=
  ⟨fun a b => ⟨a.num * (b.den : Int) - b.num * (a.den : Int), a.den * b.den⟩⟩

instance : LT PyNum :=
  ⟨fun a b => a.num * (b.den : Int) < b.num * (a.den : Int)⟩

instance (a b : PyNum) : Decidable (a < b) :=
  inferInstanceAs (Decidable (a.num * (b.den : Int) < b.num * (a.den : Int)))

/-- The represented value is nonnegative (for the positive-denominator
values the program constructs). -/
def PyNum.nonneg (a : PyNum) : Prop := 0 ≤ a.num

/-- Well-formedness of the representation: positive denominator. -/
def PyNum.posden (a : PyNum) : Prop := 0 < a.den

instance (a : PyNum) : Decidable a.nonneg :=
  inferInstanceAs (Decidable (0 ≤ a.num))

instance (a : PyNum) : Decidable a.posden :=
  inferInstanceAs (Decidable (0 < a.den))

/-- Python `str.strip()` on the character list: drop whitespace from both
ends. -/
def pyStripChars (cs : List Char) : List Char :=
  ((cs.dropWhile Char.isWhitespace).reverse.dropWhile Char.isWhitespace).reverse

/-- Python `str.strip()`. -/
def pyStrip (s : String) : String := String.mk (pyStripChars s.data)

/-- Accumulator for whitespace splitting (Python `str.split()` with no
separator: maximal runs of non-whitespace, empties dropped). -/
def pySplitWsAux : List Char → List Char → List String
  | [], acc => if acc.isEmpty then [] else [String.mk acc.reverse]
  | c :: cs, acc =>
      if c.isWhitespace then
        if acc.isEmpty then pySplitWsAux cs []
        else String.mk acc.reverse :: pySplitWsAux cs []
      else pySplitWsAux cs (c :: acc)

/-- Python `str.split()` with no arguments (bot.py lines 150, 347, 703). -/
def pySplitWs (s : String) : List String := pySplitWsAux s.data []

/-- Accumulator for single-character separator splitting (Python
`str.split(sep)`: empties kept). -/
def splitOnCharAux (sep : Char) : List Char → List Char → List (List Char)
  | [], acc => [acc.reverse]
  | c :: cs, acc =>
      if c = sep then acc.reverse :: splitOnCharAux sep cs []
      else splitOnCharAux sep cs (c :: acc)

/-- Split a character list on a separator character, keeping empty pieces. -/
def splitOnCharAll (sep : Char) (cs : List Char) : List (List Char) :=
  splitOnCharAux sep cs []

/-- Accumulator for bounded splitting (Python `str.split(sep, maxsplit)`):
once the split budget is exhausted the remainder is kept whole. -/
def pySplitOnCharMaxAux (sep : Char) : Nat → List Char → List Char → List String
  | _, [], acc => [String.mk acc.reverse]
  | 0, cs, acc => [String.mk (acc.reverse ++ cs)]
  | n + 1, c :: cs, acc =>
      if c = sep then String.mk acc.reverse :: pySplitOnCharMaxAux sep n cs []
      else pySplitOnCharMaxAux sep (n + 1) cs (c :: acc)

/-- Python `str.split(",", 3)` (bot.py line 490): at most three splits on
the comma, the remainder kept whole as the fourth piece. -/
def pySplitCommaMax3 (s : String) : List String :=
  pySplitOnCharMaxAux ',' 3 s.data []

/-- Value of a nonempty all-digit character run; `none` on any non-digit. -/
def pyDigitsVal : List Char → Nat → Option Nat
  | [], acc => some acc
  | c :: cs, acc =>
      if c.isDigit then pyDigitsVal cs (acc * 10 + (c.toNat - 48)) else none

/-- Python `int(s)` on an all-digit string, `none` when `s` is empty or
has a non-digit (matches a prior `s.isdigit()` test on ASCII text). -/
def pyToNat? (s : String) : Option Nat :=
  match s.data with
  | [] => none
  | cs => pyDigitsVal cs 0

/-- Python `str.isdigit()` on ASCII strings: nonempty and all digits. -/
def pyIsDigit (s : String) : Bool :=
  !s.data.isEmpty && s.data.all Char.isDigit

/-- Value of an unsigned decimal literal, as accepted by Python `float()`:
digits with an optional single decimal point and at least one digit in
total (`"5"`, `"5."`, `".5"`, `"5.25"`).  Exponent forms and the
`inf`/`nan` spellings accepted by Python `float()` are not modelled; no
input considered by the claims uses them. -/
def unsignedFloatVal? (cs : List Char) : Option PyNum :=
  match splitOnCharAll '.' cs with
  | [w] =>
      if w.isEmpty then none
      else (pyDigitsVal w 0).map (fun n => ⟨(n : Int), 1⟩)
  | [w, f] =>
      if w.isEmpty && f.isEmpty then none
      else
        match (if w.isEmpty then some 0 else pyDigitsVal w 0),
              (if f.isEmpty then some 0 else pyDigitsVal f 0) with
        | some wn, some fn =>
            some ⟨((wn * 10 ^ f.length + fn : Nat) : Int), 10 ^ f.length⟩
        | _, _ => none
  | _ => none

/-- Python `float(s)` on finite decimal literals (used at bot.py
lines 355, 491, 516): surrounding whitespace stripped, optional sign,
then an unsigned decimal literal; `none` models `ValueError`. -/
def pyFloat? (s : String) : Option PyNum :=
  match pyStripChars s.data with
  | '-' :: rest => (unsignedFloatVal? rest).map (fun q => ⟨-q.num, q.den⟩)
  | '+' :: rest => unsignedFloatVal? rest
  | cs => unsignedFloatVal? cs

/-- Row of the `users` table (bot.py lines 66-72):
`user_id INTEGER PRIMARY KEY, balance REAL DEFAULT 0, referred_by INTEGER`. -/
structure UserRow where
  user_id : Nat
  balance : PyNum
  referred_by : Option Nat
  deriving DecidableEq, Repr

/-- Row of the `deposits` table (bot.py lines 74-84):
`id, user_id, coin, amount REAL DEFAULT 0, txid, status TEXT DEFAULT pending`.
`txid` is NULL until the user submits evidence, hence `Option String`. -/
structure DepositRow where
  id : Nat
  user_id : Nat
  coin : String
  amount : PyNum
  txid : Option String
  status : String
  deriving DecidableEq, Repr

/-- Row of the `giftcards` table (bot.py lines 86-97):
`id, brand, value REAL, price REAL, code TEXT, bin TEXT, status TEXT DEFAULT available`.
`bin` is NULL when the code is shorter than 6 characters, hence `Option String`. -/
structure CardRow where
  id : Nat
  brand : String
  value : PyNum
  price : PyNum
  code : String
  bin : Option String
  status : String
  deriving DecidableEq, Repr

/-- Row of the `orders` table as inserted by `cb_buy` (bot.py lines 781-784):
`INSERT INTO orders (user_id, item, price) VALUES (?, ?, ?)` with
`item` an f-string of brand and value; the item snapshot is modelled as
the brand/value pair rather than the formatted string. -/
structure OrderRow where
  user_id : Nat
  itemBrand : String
  itemValue : PyNum
  price : PyNum
  deriving DecidableEq, Repr

/-- The whole SQLite store.  `orders = none` models the absence of an
`orders` table (it is never created by the init code, bot.py lines 66-98);
`nextDepositId` and `nextCardId` model the AUTOINCREMENT counters, which
never reuse ids. -/
structure DB where
  users : List UserRow
  deposits : List DepositRow
  giftcards : List CardRow
  orders : Option (List OrderRow)
  nextDepositId : Nat
  nextCardId : Nat
  deriving DecidableEq, Repr

/-- The store produced by the `CREATE TABLE IF NOT EXISTS` block
(bot.py lines 66-98) on a fresh database file: three empty tables,
no `orders` table, AUTOINCREMENT counters at 1. -/
def initState : DB :=
  { users := [], deposits := [], giftcards := [], orders := none,
    nextDepositId := 1, nextCardId := 1 }

/-- Columns of the `users` table created at startup (bot.py lines 66-72). -/
def usersColumns : List String := ["user_id", "balance", "referred_by"]

/-- Columns of the `deposits` table created at startup (bot.py lines 74-84). -/
def depositsColumns : List String :=
  ["id", "user_id", "coin", "amount", "txid", "status", "created_at"]

/-- Columns of the `giftcards` table created at startup (bot.py lines 86-97). -/
def giftcardsColumns : List String :=
  ["id", "brand", "value", "price", "code", "bin", "status", "created_at"]

/-- Names of the tables the startup code creates (bot.py lines 66-98). -/
def createdTableNames : List String := ["users", "deposits", "giftcards"]

/-- Table name in the statement `INSERT INTO orders (user_id, item, price)`
executed by `cb_buy` (bot.py lines 781-784). -/
def ordersInsertTableName : String := "orders"

/-- Column the `cb_my_orders` handler filters `giftcards` by:
`SELECT ... FROM giftcards WHERE buyer_id=?` (bot.py lines 269-273). -/
def myOrdersFilterColumn : String := "buyer_id"

/-- Predicate of the SQL lookup `WHERE user_id=?`. -/
def userIdIs (u : Nat) (r : UserRow) : Bool := r.user_id == u

/-- True when a `users` row with this id exists:
`SELECT user_id FROM users WHERE user_id=?` then truth test
(bot.py lines 116-117, 156-157). -/
def userExists (st : DB) (uid : Nat) : Bool :=
  st.users.any (userIdIs uid)

/-- `ensure_user_exists` (bot.py lines 101-103):
`INSERT OR IGNORE INTO users (user_id) VALUES (?)` — appends a row with
the default balance 0 and NULL referred_by when no row with this id exists. -/
def ensure_user_exists (st : DB) (uid : Nat) : DB :=
  if userExists st uid then st
  else { st with users := st.users ++ [⟨uid, 0, none⟩] }

/-- Balance of the first row matching a user id, 0 when absent — the
list-level content of the SQL `SELECT balance ... fetchone()` pattern. -/
def balOf (l : List UserRow) (u : Nat) : PyNum :=
  match l.find? (userIdIs u) with
  | some r => r.balance
  | none => 0

/-- `fetch_user_balance` (bot.py lines 105-108):
`SELECT balance FROM users WHERE user_id=?` with 0.0 for a missing row. -/
def fetch_user_balance (st : DB) (uid : Nat) : PyNum :=
  balOf st.users uid

/-- `add_balance` (bot.py lines 110-113): `INSERT OR IGNORE` the user row,
then `UPDATE users SET balance = balance + ? WHERE user_id=?`.
No sign or floor check of any kind is performed. -/
def add_balance (st : DB) (uid : Nat) (amount : PyNum) : DB :=
  let st1 := ensure_user_exists st uid
  { st1 with
    users := st1.users.map (fun r =>
      if r.user_id = uid then { r with balance := r.balance + amount } else r) }

/-- `credit_referral_and_create_user` (bot.py lines 115-130): no-op when the
new user already exists; otherwise, when the inviter id is truthy (present
and nonzero) and differs from the new user, `INSERT OR IGNORE` the inviter
row and credit it +2, then insert the new user with `referred_by` recorded.
The inviter notification is chat I/O. -/
def credit_referral_and_create_user (st : DB) (new_user_id : Nat)
    (inviter_id : Option Nat) : DB :=
  if userExists st new_user_id then st
  else
    match inviter_id with
    | some inv =>
        if inv ≠ 0 ∧ inv ≠ new_user_id then
          let st1 := ensure_user_exists st inv
          let st2 : DB := { st1 with
            users := st1.users.map (fun r =>
              if r.user_id = inv then { r with balance := r.balance + 2 } else r) }
          { st2 with users := st2.users ++ [⟨new_user_id, 0, some inv⟩] }
        else { st with users := st.users ++ [⟨new_user_id, 0, none⟩] }
    | none => { st with users := st.users ++ [⟨new_user_id, 0, none⟩] }

/-- Inviter id parsed by `cmd_start` (bot.py lines 150-153): the second
whitespace token of the message text when it is all digits. -/
def startInviter (text : String) : Option Nat :=
  match (pySplitWs (pyStrip text)).get? 1 with
  | some a => pyToNat? a
  | none => none

/-- `cmd_start` (bot.py lines 147-163): create the user (with referral
handling) when absent, otherwise `ensure_user_exists`; the menu rendering
is chat I/O. -/
def cmd_start (st : DB) (uid : Nat) (text : String) : DB :=
  if userExists st uid then ensure_user_exists st uid
  else credit_referral_and_create_user st uid (startInviter text)

/-- `create_deposit_request` (bot.py lines 132-137): insert a pending
deposit with amount 0 and NULL txid, returning `lastrowid`. -/
def create_deposit_request (st : DB) (uid : Nat) (coin : String) : DB × Nat :=
  ({ st with
      deposits := st.deposits ++ [⟨st.nextDepositId, uid, coin, 0, none, "pending"⟩],
      nextDepositId := st.nextDepositId + 1 },
   st.nextDepositId)

/-- `update_deposit_txid_amount` (bot.py lines 139-141):
`UPDATE deposits SET txid=?, amount=? WHERE id=?`, unconditionally. -/
def update_deposit_txid_amount (st : DB) (depId : Nat) (txid : String)
    (amount : PyNum) : DB :=
  { st with
    deposits := st.deposits.map (fun d =>
      if d.id = depId then { d with txid := some txid, amount := amount } else d) }

/-- `fetch_deposit` (bot.py lines 143-145):
`SELECT ... FROM deposits WHERE id=?` then `fetchone()`. -/
def fetch_deposit (st : DB) (depId : Nat) : Option DepositRow :=
  st.deposits.find? (fun d => d.id == depId)

/-- Outcome of submitting deposit evidence (which user-facing branch
`handle_deposit_txid_amount` takes). -/
inductive EvidenceResult where
  | badFormat
  | invalidAmount
  | submitted
  deriving DecidableEq, Repr

/-- `handle_deposit_txid_amount` (bot.py lines 345-361): split the reply
text; fewer than two tokens re-prompts with no store change; the first
token is the txid and a second token that `float()` rejects re-prompts
with no store change; otherwise the txid and the parsed amount are
recorded unconditionally.  No positivity or finiteness check is
performed. -/
def handle_deposit_txid_amount (st : DB) (depId : Nat) (text : String) :
    DB × EvidenceResult :=
  match pySplitWs (pyStrip text) with
  | txid :: amount_raw :: _ =>
      match pyFloat? amount_raw with
      | none => (st, .invalidAmount)
      | some amount => (update_deposit_txid_amount st depId txid amount, .submitted)
  | _ => (st, .badFormat)

/-- Outcome of an admin deposit decision handler. -/
inductive DepResult where
  | unauthorized
  | notFound
  | alreadyHandled
  | approved
  | rejected
  deriving DecidableEq, Repr

/-- `cb_approve_deposit` (bot.py lines 388-415): refuse non-admin actors;
not-found on a missing deposit; already-handled (no store change) when
the status is not `pending`; otherwise set status `approved` and credit
the owner by the recorded amount via `add_balance`.  The deposit id
arrives already formatted in the callback data; its integer parse is not
modelled. -/
def cb_approve_deposit (adminId : Nat) (st : DB) (actor depId : Nat) :
    DB × DepResult :=
  if actor ≠ adminId then (st, .unauthorized)
  else
    match fetch_deposit st depId with
    | none => (st, .notFound)
    | some dep =>
        if dep.status ≠ "pending" then (st, .alreadyHandled)
        else
          (add_balance
            { st with
              deposits := st.deposits.map (fun d =>
                if d.id = depId then { d with status := "approved" } else d) }
            dep.user_id dep.amount,
           .approved)

/-- `cb_reject_deposit` (bot.py lines 417-443): same guards as approval;
sets status `rejected`; no balance change. -/
def cb_reject_deposit (adminId : Nat) (st : DB) (actor depId : Nat) :
    DB × DepResult :=
  if actor ≠ adminId then (st, .unauthorized)
  else
    match fetch_deposit st depId with
    | none => (st, .notFound)
    | some dep =>
        if dep.status ≠ "pending" then (st, .alreadyHandled)
        else
          ({ st with
             deposits := st.deposits.map (fun d =>
               if d.id = depId then { d with status := "rejected" } else d) },
           .rejected)

/-- Outcome of the admin upload wizard. -/
inductive UploadResult where
  | unauthorized
  | badFormat
  | uploaded (cardId : Nat)
  deriving DecidableEq, Repr

/-- `admin_process_upload` (bot.py lines 486-507): silently refuse
non-admin actors; split the line on at most three commas and strip each
piece; any unpacking or `float()` failure reports a bad format with no
store change; otherwise insert an `available` card whose `bin` is the
first 6 characters of the code, or NULL when the code is shorter.  Only
parseability of value and price is checked, never their sign.
(`cmd_upload`, bot.py lines 510-524, performs the same store mutation
from a whitespace-separated command line.) -/
def admin_process_upload (adminId : Nat) (st : DB) (actor : Nat)
    (text : String) : DB × UploadResult :=
  if actor ≠ adminId then (st, .unauthorized)
  else
    match pySplitCommaMax3 text with
    | [b, v, p, c] =>
        let brand := pyStrip b
        let code := pyStrip c
        match pyFloat? (pyStrip v), pyFloat? (pyStrip p) with
        | some value, some price =>
            ({ st with
               giftcards := st.giftcards ++
                 [⟨st.nextCardId, brand, value, price, code,
                   if 6 ≤ code.data.length then some (String.mk (code.data.take 6))
                   else none,
                   "available"⟩],
               nextCardId := st.nextCardId + 1 },
             .uploaded st.nextCardId)
        | _, _ => (st, .badFormat)
    | _ => (st, .badFormat)

/-- Outcome of the two admin stock override handlers: `done` records that
the bot answered with its success text. -/
inductive StockResult where
  | unauthorized
  | done
  deriving DecidableEq, Repr

/-- `cb_delete_card` (bot.py lines 552-560): silently refuse non-admin
actors; otherwise `DELETE FROM giftcards WHERE id=?` — no existence or
status check — and answer that the card was deleted. -/
def cb_delete_card (adminId : Nat) (st : DB) (actor cardId : Nat) :
    DB × StockResult :=
  if actor ≠ adminId then (st, .unauthorized)
  else
    ({ st with giftcards := st.giftcards.filter (fun c => !(c.id == cardId)) },
     .done)

/-- `cb_mark_sold` (bot.py lines 562-570): silently refuse non-admin
actors; otherwise `UPDATE giftcards SET status=sold WHERE id=?` — no
existence or prior-status check — and answer that the card was marked
sold. -/
def cb_mark_sold (adminId : Nat) (st : DB) (actor cardId : Nat) :
    DB × StockResult :=
  if actor ≠ adminId then (st, .unauthorized)
  else
    ({ st with
       giftcards := st.giftcards.map (fun c =>
         if c.id = cardId then { c with status := "sold" } else c) },
     .done)

/-- Outcome of the admin balance-adjust callback. -/
inductive AddBalResult where
  | unauthorized
  | adjusted
  deriving DecidableEq, Repr

/-- `cb_addbal` (bot.py lines 613-625): silently refuse non-admin actors;
otherwise apply `add_balance` with the signed amount from the callback
data — no check that the resulting balance stays nonnegative.  The
callback-data integer parses are not modelled. -/
def cb_addbal (adminId : Nat) (st : DB) (actor uid : Nat) (amt : PyNum) :
    DB × AddBalResult :=
  if actor ≠ adminId then (st, .unauthorized)
  else (add_balance st uid amt, .adjusted)

/-- Outcome of a BIN search. -/
inductive BinSearchResult where
  | invalidQuery
  | results (rows : List CardRow)
  deriving DecidableEq, Repr

/-- `process_bin_search_msg` (bot.py lines 714-729): reject the query only
when it is not all digits or is shorter than 6 characters (`len < 6`,
not `len = 6`); otherwise return the rows of
`SELECT ... FROM giftcards WHERE bin=? AND status=available`. -/
def process_bin_search_msg (st : DB) (bin_code : String) : BinSearchResult :=
  if !pyIsDigit bin_code || bin_code.data.length < 6 then .invalidQuery
  else
    .results (st.giftcards.filter (fun c =>
      c.bin == some bin_code && c.status == "available"))

/-- Outcome of the buy callback. -/
inductive BuyResult where
  | notFoundCard
  | notAvailable
  | insufficientBalance
  | orderInsertError
  | purchased
  deriving DecidableEq, Repr

/-- `cb_buy` (bot.py lines 749-802): ensure the buyer row exists, read the
balance and the card; missing card, non-`available` status, or
insufficient balance each answer an error with no further mutation.
Otherwise the debit and the `sold` flag are committed together
(lines 776-778), and only then — in a separate statement and commit
(lines 781-785) — an order row is inserted; when the `orders` table does
not exist that insert raises `sqlite3.OperationalError`
(`orderInsertError`), leaving the already committed debit and `sold`
status in place. -/
def cb_buy (st : DB) (uid cardId : Nat) : DB × BuyResult :=
  let st0 := ensure_user_exists st uid
  let balance := fetch_user_balance st0 uid
  match st0.giftcards.find? (fun c => c.id == cardId) with
  | none => (st0, .notFoundCard)
  | some card =>
      if card.status ≠ "available" then (st0, .notAvailable)
      else if balance < card.price then (st0, .insufficientBalance)
      else
        let st1 : DB := { st0 with
          users := st0.users.map (fun r =>
            if r.user_id = uid then { r with balance := r.balance - card.price } else r),
          giftcards := st0.giftcards.map (fun c =>
            if c.id = cardId then { c with status := "sold" } else c) }
        match st1.orders with
        | none => (st1, .orderInsertError)
        | some l =>
            ({ st1 with orders := some (l ++ [⟨uid, card.brand, card.value, card.price⟩]) },
             .purchased)

/-- One inbound event that mutates the store, covering every
store-mutating handler of bot.py. -/
inductive BotOp where
  | start (uid : Nat) (text : String)
  | deposit (uid : Nat) (coin : String)
  | evidence (depId : Nat) (text : String)
  | approve (actor depId : Nat)
  | reject (actor depId : Nat)
  | upload (actor : Nat) (line : String)
  | deleteCard (actor cardId : Nat)
  | markSold (actor cardId : Nat)
  | addBal (actor uid : Nat) (amt : PyNum)
  | buy (uid cardId : Nat)
  deriving Repr

/-- Dispatch of one inbound event to its handler, keeping the new store
state (outcomes are chat replies). -/
def stepBot (adminId : Nat) (st : DB) : BotOp → DB
  | .start uid text => cmd_start st uid text
  | .deposit uid coin => (create_deposit_request st uid coin).1
  | .evidence depId text => (handle_deposit_txid_amount st depId text).1
  | .approve actor depId => (cb_approve_deposit adminId st actor depId).1
  | .reject actor depId => (cb_reject_deposit adminId st actor depId).1
  | .upload actor line => (admin_process_upload adminId st actor line).1
  | .deleteCard actor cardId => (cb_delete_card adminId st actor cardId).1
  | .markSold actor cardId => (cb_mark_sold adminId st actor cardId).1
  | .addBal actor uid amt => (cb_addbal adminId st actor uid amt).1
  | .buy uid cardId => (cb_buy st uid cardId).1

/-- Store state after a sequence of inbound events. -/
def runBot (adminId : Nat) (st : DB) (ops : List BotOp) : DB :=
  ops.foldl (stepBot adminId) st

/-- Concrete event sequence from a fresh database (admin id 99): user 1
starts, the admin adds $10 four times from the user panel, and uploads a
card — the scenario of spec section 8. -/
def demoOps : List BotOp :=
  [.start 1 "/start", .addBal 99 1 10, .addBal 99 1 10, .addBal 99 1 10,
   .addBal 99 1 10, .upload 99 "Amazon,50,40,ABCDEF123456"]

/-- Store state reached by `demoOps`: user 1 with balance 40, card 1
(`Amazon`, value 50, price 40, bin `ABCDEF`) available, no `orders` table. -/
def demoState : DB := runBot 99 initState demoOps

/-- State after user 1 buys card 1 from `demoState`. -/
def soldDemoState : DB := (cb_buy demoState 1 1).1

/-- Store state with one pending deposit (id 1, user 1, BTC, amount 0.5,
txid TX1), reached from a fresh database. -/
def depositDemoState : DB :=
  runBot 99 initState [.start 1 "/start", .deposit 1 "BTC", .evidence 1 "TX1 0.5"]

/-- Invariant used for the sold-stays-sold property: every card with the
given id is `sold`, and the id is below the AUTOINCREMENT counter (so a
future upload can never mint a fresh `available` card with this id). -/
def soldPersistsInv (cid : Nat) (st : DB) : Prop :=
  (∀ c ∈ st.giftcards, c.id = cid → c.status = "sold") ∧ cid < st.nextCardId

/-! ### Helper lemmas about the embedding -/

theorem PyNum.sub_num (a b : PyNum) :
    (a - b).num = a.num * (b.den : Int) - b.num * (a.den : Int) := rfl

theorem PyNum.sub_den (a b : PyNum) : (a - b).den = a.den * b.den := rfl

theorem PyNum.lt_def (a b : PyNum) :
    a < b ↔ a.num * (b.den : Int) < b.num * (a.den : Int) := Iff.rfl

theorem find?_map_congr {α : Type} (f : α → α) (p : α → Bool)
    (hp : ∀ a, p (f a) = p a) (l : List α) :
    (l.map f).find? p = (l.find? p).map f := by
  rw [List.find?_map]
  have hc : p ∘ f = p := funext hp
  rw [hc]

theorem map_id_of_mem {α : Type} (l : List α) (f : α → α)
    (h : ∀ a ∈ l, f a = a) : l.map f = l := by
  induction l with
  | nil => rfl
  | cons a t ih =>
      rw [List.map_cons, h a (List.mem_cons_self a t),
        ih (fun x hx => h x (List.mem_cons_of_mem a hx))]

theorem ensure_user_exists_deposits (st : DB) (uid : Nat) :
    (ensure_user_exists st uid).deposits = st.deposits := by
  unfold ensure_user_exists; split <;> rfl

theorem ensure_user_exists_giftcards (st : DB) (uid : Nat) :
    (ensure_user_exists st uid).giftcards = st.giftcards := by
  unfold ensure_user_exists; split <;> rfl

theorem ensure_user_exists_orders (st : DB) (uid : Nat) :
    (ensure_user_exists st uid).orders = st.orders := by
  unfold ensure_user_exists; split <;> rfl

theorem ensure_user_exists_nextCardId (st : DB) (uid : Nat) :
    (ensure_user_exists st uid).nextCardId = st.nextCardId := by
  unfold ensure_user_exists; split <;> rfl

theorem ensure_user_exists_nextDepositId (st : DB) (uid : Nat) :
    (ensure_user_exists st uid).nextDepositId = st.nextDepositId := by
  unfold ensure_user_exists; split <;> rfl

theorem ensure_user_exists_of_exists (st : DB) (uid : Nat)
    (h : userExists st uid = true) : ensure_user_exists st uid = st := by
  unfold ensure_user_exists; simp [h]

theorem userExists_ensure_self (st : DB) (uid : Nat) :
    userExists (ensure_user_exists st uid) uid = true := by
  unfold ensure_user_exists
  by_cases h : userExists st uid
  · simp [h]
  · rw [if_neg h]
    unfold userExists at *
    simp [List.any_append, userIdIs]

theorem balOf_append_new (l : List UserRow) (uid u : Nat) :
    balOf (l ++ [⟨uid, 0, none⟩]) u = balOf l u := by
  unfold balOf
  rw [List.find?_append]
  cases hf : l.find? (userIdIs u) with
  | some r => rfl
  | none =>
      by_cases hq : uid = u
      · simp [List.find?, userIdIs, hq]
      · have hb : (uid == u) = false := by simpa using hq
        simp [List.find?, userIdIs, hb]

theorem balOf_map (l : List UserRow) (f : UserRow → UserRow)
    (hf : ∀ r, (f r).user_id = r.user_id) (u : Nat) :
    balOf (l.map f) u =
      match l.find? (userIdIs u) with
      | some r => (f r).balance
      | none => 0 := by
  unfold balOf
  rw [find?_map_congr f (userIdIs u) (fun a => by simp [userIdIs, hf a])]
  cases l.find? (userIdIs u) <;> rfl

theorem balOf_nonneg_posden (l : List UserRow)
    (h : ∀ r ∈ l, r.balance.nonneg ∧ r.balance.posden) (u : Nat) :
    (balOf l u).nonneg ∧ (balOf l u).posden := by
  unfold balOf
  cases hf : l.find? (userIdIs u) with
  | some r => exact h r (List.mem_of_find?_eq_some hf)
  | none => exact ⟨le_refl 0, Nat.zero_lt_one⟩

theorem fetch_ensure (st : DB) (uid u : Nat) :
    fetch_user_balance (ensure_user_exists st uid) u = fetch_user_balance st u := by
  unfold ensure_user_exists fetch_user_balance
  by_cases h : userExists st uid
  · simp [h]
  · rw [if_neg h]
    exact balOf_append_new st.users uid u

theorem add_balance_deposits (st : DB) (uid : Nat) (amt : PyNum) :
    (add_balance st uid amt).deposits = st.deposits := by
  unfold add_balance
  simp [ensure_user_exists_deposits]

theorem add_balance_giftcards (st : DB) (uid : Nat) (amt : PyNum) :
    (add_balance st uid amt).giftcards = st.giftcards := by
  unfold add_balance
  simp [ensure_user_exists_giftcards]

theorem add_balance_orders (st : DB) (uid : Nat) (amt : PyNum) :
    (add_balance st uid amt).orders = st.orders := by
  unfold add_balance
  simp [ensure_user_exists_orders]

theorem add_balance_nextCardId (st : DB) (uid : Nat) (amt : PyNum) :
    (add_balance st uid amt).nextCardId = st.nextCardId := by
  unfold add_balance
  simp [ensure_user_exists_nextCardId]

/-! ### C1 -/

/-- C1, counterexample.  The claim says any debiting balance adjustment is
rejected if it would make the balance negative; but the admin
balance-adjust callback applies the delta unconditionally: adjusting the
(freshly created) user 7 by -10 on an empty store reports success and
leaves the stored balance at the negative value -10. -/
theorem addbal_drives_balance_negative :
    (cb_addbal 99 initState 99 7 (-10)).2 = .adjusted ∧
    fetch_user_balance (cb_addbal 99 initState 99 7 (-10)).1 7 = ⟨-10, 1⟩ ∧
    (fetch_user_balance (cb_addbal 99 initState 99 7 (-10)).1 7).num < 0 := by
  decide

/-- C1, amended: the purchase path preserves nonnegative balances —
`cb_buy` debits only after checking `balance < price` — while deposit
approval and the admin balance adjustment apply their deltas with no such
guard.  Formally: when every stored balance is nonnegative (with
well-formed positive denominators, as every program-constructed amount
has), every balance observable after any `cb_buy` call is still
nonnegative. -/
theorem purchase_preserves_nonneg_balances (st : DB) (uid cardId : Nat)
    (hu : ∀ r ∈ st.users, r.balance.nonneg ∧ r.balance.posden)
    (hcards : ∀ c ∈ st.giftcards, c.price.posden) :
    ∀ u, (fetch_user_balance (cb_buy st uid cardId).1 u).nonneg ∧
         (fetch_user_balance (cb_buy st uid cardId).1 u).posden := by
  intro u
  have h0 : ∀ r ∈ (ensure_user_exists st uid).users, r.balance.nonneg ∧ r.balance.posden := by
    unfold ensure_user_exists
    split
    · exact hu
    · intro r hr
      rcases List.mem_append.1 hr with hl | hr1
      · exact hu r hl
      · simp only [List.mem_singleton] at hr1
        subst hr1
        exact ⟨le_refl 0, Nat.zero_lt_one⟩
  unfold cb_buy fetch_user_balance
  cases hc : (ensure_user_exists st uid).giftcards.find? (fun c => c.id == cardId) with
  | none =>
      simp only [hc]
      exact balOf_nonneg_posden _ h0 u
  | some card =>
      have hcardmem : card ∈ st.giftcards := by
        have := List.mem_of_find?_eq_some hc
        rwa [ensure_user_exists_giftcards] at this
      have hpden : card.price.posden := hcards card hcardmem
      simp only [hc]
      by_cases hav : card.status ≠ "available"
      · simp only [if_pos hav]
        exact balOf_nonneg_posden _ h0 u
      · simp only [if_neg hav]
        by_cases hbal : balOf (ensure_user_exists st uid).users uid < card.price
        · simp only [if_pos hbal]
          exact balOf_nonneg_posden _ h0 u
        · simp only [if_neg hbal]
          have key :
              (balOf ((ensure_user_exists st uid).users.map (fun r =>
                if r.user_id = uid then { r with balance := r.balance - card.price } else r)) u).nonneg ∧
              (balOf ((ensure_user_exists st uid).users.map (fun r =>
                if r.user_id = uid then { r with balance := r.balance - card.price } else r)) u).posden := by
            rw [balOf_map _ _ (fun r => by by_cases hru : r.user_id = uid <;> simp [hru])]
            cases hf : (ensure_user_exists st uid).users.find? (userIdIs u) with
            | none => exact ⟨le_refl 0, Nat.zero_lt_one⟩
            | some r =>
                have hru : r.user_id = u := by
                  have := List.find?_some hf
                  simpa [userIdIs] using this
                have hmem := List.mem_of_find?_eq_some hf
                show (if r.user_id = uid then ({ r with balance := r.balance - card.price } : UserRow) else r).balance.nonneg ∧
                     (if r.user_id = uid then ({ r with balance := r.balance - card.price } : UserRow) else r).balance.posden
                by_cases huu : u = uid
                · subst huu
                  have hfe : balOf (ensure_user_exists st u).users u = r.balance := by
                    unfold balOf
                    rw [hf]
                  rw [hfe] at hbal
                  rw [if_pos hru]
                  constructor
                  · show 0 ≤ (r.balance - card.price).num
                    rw [PyNum.sub_num]
                    rw [PyNum.lt_def] at hbal
                    omega
                  · show 0 < (r.balance - card.price).den
                    rw [PyNum.sub_den]
                    exact Nat.mul_pos (h0 r hmem).2 hpden
                · rw [if_neg (fun hcc => huu (hru.symm.trans hcc))]
                  exact h0 r hmem
          cases ho : (ensure_user_exists st uid).orders with
          | none => simpa [ho] using key
          | some l => simpa [ho] using key

/-- C1, amended, witness: from the reachable state `demoState` (user 1,
balance 40, one card priced 40), the balance observable for user 1 after
buying card 1 is still nonnegative. -/
theorem purchase_preserves_nonneg_balances_witness :
    (fetch_user_balance (cb_buy demoState 1 1).1 1).nonneg ∧
    (fetch_user_balance (cb_buy demoState 1 1).1 1).posden :=
  purchase_preserves_nonneg_balances demoState 1 1 (by decide) (by decide) 1

/-! ### C2 -/

/-- C2: the three purchase mutations are not one atomic unit.  From the
reachable state `demoState` (user 1 with balance 40, card 1 priced 40,
schema exactly as created at startup, hence no `orders` table), the buy
handler commits the debit and the `sold` flag and then fails on the
order insert: the resulting committed state has the buyer debited to 0
and the card `sold` with no order record anywhere. -/
theorem buy_commits_partial_state :
    fetch_user_balance demoState 1 = ⟨40, 1⟩ ∧
    (cb_buy demoState 1 1).2 = .orderInsertError ∧
    fetch_user_balance (cb_buy demoState 1 1).1 1 = ⟨0, 1⟩ ∧
    (cb_buy demoState 1 1).1.giftcards =
      [⟨1, "Amazon", ⟨50, 1⟩, ⟨40, 1⟩, "ABCDEF123456", some "ABCDEF", "sold"⟩] ∧
    (cb_buy demoState 1 1).1.orders = none := by
  decide

/-! ### C9 -/

/-- C9: the startup schema does not match the claimed four-table layout.
Initialization creates only `users`, `deposits` and `giftcards`; the
`giftcards` table has no `buyer_id` column even though `cb_my_orders`
filters by one, and no `orders` table exists even though `cb_buy` inserts
into one. -/
theorem orders_table_and_buyer_id_missing :
    createdTableNames = ["users", "deposits", "giftcards"] ∧
    ordersInsertTableName ∉ createdTableNames ∧
    myOrdersFilterColumn ∉ giftcardsColumns ∧
    initState.orders = none := by
  decide

/-! ### C3 -/

theorem depFind_map (l : List DepositRow) (g : DepositRow → DepositRow)
    (hg : ∀ d, (g d).id = d.id) (depId : Nat) :
    (l.map g).find? (fun d => d.id == depId) =
      (l.find? (fun d => d.id == depId)).map g :=
  find?_map_congr g _ (fun d => by simp [hg d]) l

/-- C3: a deposit decision is terminal.  When a deposit status is not
`pending`, both approve and reject answer already-handled and leave the
store untouched; and after a successful approve, a second approve (or a
reject) of the same deposit answers already-handled and leaves the store
untouched — in particular no second balance credit happens. -/
theorem deposit_terminal_transition (adminId : Nat) (st : DB) (depId : Nat) :
    (∀ dep, fetch_deposit st depId = some dep → dep.status ≠ "pending" →
      cb_approve_deposit adminId st adminId depId = (st, .alreadyHandled) ∧
      cb_reject_deposit adminId st adminId depId = (st, .alreadyHandled)) ∧
    (∀ st1, cb_approve_deposit adminId st adminId depId = (st1, .approved) →
      cb_approve_deposit adminId st1 adminId depId = (st1, .alreadyHandled) ∧
      cb_reject_deposit adminId st1 adminId depId = (st1, .alreadyHandled)) := by
  constructor
  · intro dep hdep hst
    constructor
    · unfold cb_approve_deposit
      rw [if_neg (fun hne => hne rfl)]
      simp only [hdep]
      rw [if_pos hst]
    · unfold cb_reject_deposit
      rw [if_neg (fun hne => hne rfl)]
      simp only [hdep]
      rw [if_pos hst]
  · intro st1 h
    have hinv : ∃ dep, fetch_deposit st depId = some dep ∧ dep.status = "pending" ∧
        st1 = add_balance
          { st with
            deposits := st.deposits.map (fun d =>
              if d.id = depId then { d with status := "approved" } else d) }
          dep.user_id dep.amount := by
      unfold cb_approve_deposit at h
      rw [if_neg (fun hne => hne rfl)] at h
      cases hf : fetch_deposit st depId with
      | none => simp only [hf] at h; simp at h
      | some dep =>
          simp only [hf] at h
          by_cases hstp : dep.status ≠ "pending"
          · rw [if_pos hstp] at h
            simp at h
          · rw [if_neg hstp] at h
            push_neg at hstp
            refine ⟨dep, rfl, hstp, ?_⟩
            have := congrArg Prod.fst h
            simpa using this.symm
    obtain ⟨dep, hf, hpend, hst1⟩ := hinv
    have hdid : dep.id = depId := by
      have := List.find?_some hf
      simpa using this
    have hfetch1 : fetch_deposit st1 depId = some { dep with status := "approved" } := by
      rw [hst1]
      unfold fetch_deposit
      simp only [add_balance_deposits]
      rw [depFind_map st.deposits _
        (fun d => by by_cases hd : d.id = depId <;> simp [hd]) depId]
      unfold fetch_deposit at hf
      rw [hf]
      simp [hdid]
    have hna : ({ dep with status := "approved" } : DepositRow).status ≠ "pending" := by
      simp
    constructor
    · unfold cb_approve_deposit
      rw [if_neg (fun hne => hne rfl)]
      simp only [hfetch1]
      rw [if_pos hna]
    · unfold cb_reject_deposit
      rw [if_neg (fun hne => hne rfl)]
      simp only [hfetch1]
      rw [if_pos hna]

/-- C3, witness: on the concrete pending deposit of `depositDemoState`,
after rejecting, an approve answers already-handled with no change; and
approving the pending deposit once makes a second approve answer
already-handled with no change. -/
theorem deposit_terminal_transition_witness :
    cb_approve_deposit 99 (cb_reject_deposit 99 depositDemoState 99 1).1 99 1 =
      ((cb_reject_deposit 99 depositDemoState 99 1).1, .alreadyHandled) ∧
    cb_approve_deposit 99 (cb_approve_deposit 99 depositDemoState 99 1).1 99 1 =
      ((cb_approve_deposit 99 depositDemoState 99 1).1, .alreadyHandled) := by
  constructor
  · exact ((deposit_terminal_transition 99 (cb_reject_deposit 99 depositDemoState 99 1).1 1).1
      ⟨1, 1, "BTC", ⟨5, 10⟩, some "TX1", "rejected"⟩ (by decide) (by decide)).1
  · exact ((deposit_terminal_transition 99 depositDemoState 1).2
      (cb_approve_deposit 99 depositDemoState 99 1).1 (by decide)).1

/-! ### C10 -/

/-- C10: the admin stock overrides report success unconditionally.
For an admin actor, mark-sold always answers its success text (no
not-found or already-handled distinction; on an id matching no card the
store is unchanged), and delete always answers its success text and
removes every row with the given id regardless of its status, `sold`
included. -/
theorem admin_overrides_unconditional (adminId : Nat) (st : DB)
    (cardId actor : Nat) (h : actor = adminId) :
    (cb_mark_sold adminId st actor cardId).2 = .done ∧
    (cb_delete_card adminId st actor cardId).2 = .done ∧
    (∀ c, c ∈ (cb_delete_card adminId st actor cardId).1.giftcards ↔
      (c ∈ st.giftcards ∧ c.id ≠ cardId)) ∧
    ((∀ c ∈ st.giftcards, c.id ≠ cardId) →
      (cb_mark_sold adminId st actor cardId).1 = st) := by
  subst h
  unfold cb_mark_sold cb_delete_card
  simp only [if_neg (fun hne : actor ≠ actor => hne rfl)]
  refine ⟨by trivial, by trivial, ?_, ?_⟩
  · intro c
    constructor
    · intro hc
      have hmf := List.mem_filter.1 hc
      exact ⟨hmf.1, by simpa using hmf.2⟩
    · intro hc
      exact List.mem_filter.2 ⟨hc.1, by simpa using hc.2⟩
  · intro hall
    have hmap : st.giftcards.map (fun c =>
        if c.id = cardId then { c with status := "sold" } else c) = st.giftcards :=
      map_id_of_mem _ _ (fun c hc => by rw [if_neg (hall c hc)])
    rw [hmap]

/-- C10, witness: on `soldDemoState` (card 1 already `sold`), mark-sold
and delete both report success; deleting removes the sold row; mark-sold
of the nonexistent id 77 reports success and changes nothing. -/
theorem admin_overrides_unconditional_witness :
    (cb_mark_sold 99 soldDemoState 99 1).2 = .done ∧
    (cb_delete_card 99 soldDemoState 99 1).2 = .done ∧
    (⟨1, "Amazon", ⟨50, 1⟩, ⟨40, 1⟩, "ABCDEF123456", some "ABCDEF", "sold"⟩ : CardRow) ∉
      (cb_delete_card 99 soldDemoState 99 1).1.giftcards ∧
    (cb_mark_sold 99 soldDemoState 99 77).2 = .done ∧
    (cb_mark_sold 99 soldDemoState 99 77).1 = soldDemoState := by
  refine ⟨(admin_overrides_unconditional 99 soldDemoState 1 99 rfl).1,
    (admin_overrides_unconditional 99 soldDemoState 1 99 rfl).2.1,
    fun hm => ?_,
    (admin_overrides_unconditional 99 soldDemoState 77 99 rfl).1,
    (admin_overrides_unconditional 99 soldDemoState 77 99 rfl).2.2.2 (by decide)⟩
  have hiff := ((admin_overrides_unconditional 99 soldDemoState 1 99 rfl).2.2.1
    ⟨1, "Amazon", ⟨50, 1⟩, ⟨40, 1⟩, "ABCDEF123456", some "ABCDEF", "sold"⟩).1 hm
  exact hiff.2 rfl

/-! ### C4 -/

/-- C4, counterexample.  The claim says the BIN search fails with an
invalid-query error unless the input is exactly 6 digits; but the code
only rejects inputs that are not all digits or shorter than 6: the
7-digit query is accepted and searched (returning an empty result list),
not rejected. -/
theorem bin_search_accepts_seven_digit_query :
    process_bin_search_msg demoState "1234567" = .results [] ∧
    ("1234567").data.length = 7 := by
  decide

/-- C4, amended: the BIN search fails with the invalid-query reply
exactly when the input is not all digits or has fewer than 6 characters
(so all-digit queries longer than 6 are accepted too); for an accepted
query it returns exactly the available cards whose stored bin equals the
query. -/
theorem bin_search_amended (st : DB) (q : String) :
    (¬ (pyIsDigit q = true ∧ 6 ≤ q.data.length) →
      process_bin_search_msg st q = .invalidQuery) ∧
    (pyIsDigit q = true → 6 ≤ q.data.length →
      ∃ rows, process_bin_search_msg st q = .results rows ∧
        ∀ c, c ∈ rows ↔ (c ∈ st.giftcards ∧ c.bin = some q ∧
          c.status = "available")) := by
  constructor
  · intro hn
    unfold process_bin_search_msg
    have hc : (!pyIsDigit q || decide (q.data.length < 6)) = true := by
      cases hd : pyIsDigit q with
      | false => rfl
      | true =>
          have hlt : q.data.length < 6 :=
            Nat.lt_of_not_le (fun hle => hn ⟨hd, hle⟩)
          rw [decide_eq_true hlt]
          rfl
    rw [if_pos hc]
  · intro hd hle
    unfold process_bin_search_msg
    have hc : (!pyIsDigit q || decide (q.data.length < 6)) = false := by
      rw [hd, decide_eq_false (Nat.not_lt.2 hle)]
      rfl
    rw [if_neg (fun hT => by rw [hc] at hT; exact Bool.false_ne_true hT)]
    refine ⟨_, rfl, ?_⟩
    intro c
    rw [List.mem_filter]
    constructor
    · intro hmf
      refine ⟨hmf.1, ?_, ?_⟩
      · have := hmf.2
        simp only [Bool.and_eq_true, beq_iff_eq] at this
        exact this.1
      · have := hmf.2
        simp only [Bool.and_eq_true, beq_iff_eq] at this
        exact this.2
    · intro hmf
      refine ⟨hmf.1, ?_⟩
      simp only [Bool.and_eq_true, beq_iff_eq]
      exact ⟨hmf.2.1, hmf.2.2⟩

/-- C4, amended, witness: the all-digit 6-character query `999999` on
`demoState` is accepted and the returned rows are exactly the available
cards whose stored bin equals it. -/
theorem bin_search_amended_witness :
    ∃ rows, process_bin_search_msg demoState "999999" = .results rows ∧
      ∀ c, c ∈ rows ↔ (c ∈ demoState.giftcards ∧ c.bin = some "999999" ∧
        c.status = "available") :=
  (bin_search_amended demoState "999999").2 (by decide) (by decide)

/-! ### C7 -/

/-- C7, counterexample.  The claim says a non-positive amount fails with
an invalid-amount error, re-prompts, and leaves the deposit unchanged;
but the handler accepts any amount `float()` parses: evidence with
amount -5 on the pending deposit 1 is reported submitted and the
deposit txid and (negative) amount are recorded. -/
theorem deposit_evidence_accepts_negative_amount :
    (handle_deposit_txid_amount depositDemoState 1 "TX9 -5").2 = .submitted ∧
    fetch_deposit (handle_deposit_txid_amount depositDemoState 1 "TX9 -5").1 1 =
      some ⟨1, 1, "BTC", ⟨-5, 1⟩, some "TX9", "pending"⟩ := by
  decide

/-- C7, amended: the evidence handler validates only that the reply has
two tokens and that the second parses under `float()`; fewer tokens or a
non-parsing amount re-prompt with the store unchanged, and any parseable
amount — non-positive included — is recorded on the target deposit
(other deposits unchanged). -/
theorem deposit_evidence_amended (st : DB) (depId : Nat) (text : String) :
    ((pySplitWs (pyStrip text)).length < 2 →
      handle_deposit_txid_amount st depId text = (st, .badFormat)) ∧
    (∀ txid amount_raw rest, pySplitWs (pyStrip text) = txid :: amount_raw :: rest →
      (pyFloat? amount_raw = none →
        handle_deposit_txid_amount st depId text = (st, .invalidAmount)) ∧
      (∀ q, pyFloat? amount_raw = some q →
        (handle_deposit_txid_amount st depId text).2 = .submitted ∧
        fetch_deposit (handle_deposit_txid_amount st depId text).1 depId =
          (fetch_deposit st depId).map
            (fun d => { d with txid := some txid, amount := q }) ∧
        (∀ d ∈ (handle_deposit_txid_amount st depId text).1.deposits,
          d.id ≠ depId → d ∈ st.deposits))) := by
  constructor
  · intro hlen
    unfold handle_deposit_txid_amount
    cases hsp : pySplitWs (pyStrip text) with
    | nil => rfl
    | cons a t =>
        cases t with
        | nil => rfl
        | cons b t2 =>
            exfalso
            rw [hsp] at hlen
            simp at hlen
            omega
  · intro txid amount_raw rest hsp
    constructor
    · intro hn
      unfold handle_deposit_txid_amount
      simp only [hsp, hn]
    · intro q hq
      unfold handle_deposit_txid_amount
      simp only [hsp, hq]
      refine ⟨by trivial, ?_, ?_⟩
      · unfold update_deposit_txid_amount fetch_deposit
        rw [show ({ st with deposits := st.deposits.map (fun d =>
            if d.id = depId then { d with txid := some txid, amount := q } else d) } : DB).deposits =
          st.deposits.map (fun d =>
            if d.id = depId then { d with txid := some txid, amount := q } else d) from rfl]
        rw [depFind_map st.deposits _
          (fun d => by by_cases hd : d.id = depId <;> simp [hd]) depId]
        cases hf : st.deposits.find? (fun d => d.id == depId) with
        | none => rfl
        | some d =>
            have hdid : d.id = depId := by
              have := List.find?_some hf
              simpa using this
            simp [hdid]
      · intro d hd hne
        have hd2 : d ∈ st.deposits.map (fun d =>
            if d.id = depId then { d with txid := some txid, amount := q } else d) := hd
        obtain ⟨d0, hd0, hgd⟩ := List.mem_map.1 hd2
        by_cases h0 : d0.id = depId
        · exfalso
          apply hne
          rw [← hgd]
          simp [h0]
        · rw [← hgd]
          simp only [if_neg h0]
          exact hd0

/-- C7, amended, witness: on `depositDemoState`, a one-token reply and a
non-numeric amount both leave the store unchanged, while the parseable
`TX2 3.5` is recorded on deposit 1. -/
theorem deposit_evidence_amended_witness :
    handle_deposit_txid_amount depositDemoState 1 "justatxid" =
      (depositDemoState, .badFormat) ∧
    handle_deposit_txid_amount depositDemoState 1 "TX2 abc" =
      (depositDemoState, .invalidAmount) ∧
    (handle_deposit_txid_amount depositDemoState 1 "TX2 3.5").2 = .submitted := by
  refine ⟨(deposit_evidence_amended depositDemoState 1 "justatxid").1 (by decide),
    ((deposit_evidence_amended depositDemoState 1 "TX2 abc").2 "TX2" "abc" []
      (by decide)).1 (by decide),
    (((deposit_evidence_amended depositDemoState 1 "TX2 3.5").2 "TX2" "3.5" []
      (by decide)).2 ⟨35, 10⟩ (by decide)).1⟩

/-! ### C6 -/

theorem balOf_append_zero (l : List UserRow) (row : UserRow)
    (hrow : row.balance = 0) (u : Nat) :
    balOf (l ++ [row]) u = balOf l u := by
  unfold balOf
  rw [List.find?_append]
  cases hf : l.find? (userIdIs u) with
  | some r => rfl
  | none =>
      cases hpr : userIdIs u row with
      | true => simp [List.find?, hpr, hrow]
      | false => simp [List.find?, hpr]

theorem find?_isSome_of_userExists (st : DB) (u : Nat)
    (h : userExists st u = true) :
    ∃ r, st.users.find? (userIdIs u) = some r ∧ r.user_id = u := by
  unfold userExists at h
  rw [List.any_eq_true] at h
  obtain ⟨x, hx, hpx⟩ := h
  have hs : (st.users.find? (userIdIs u)).isSome :=
    List.find?_isSome.2 ⟨x, hx, hpx⟩
  obtain ⟨r, hr⟩ := Option.isSome_iff_exists.1 hs
  refine ⟨r, hr, ?_⟩
  have := List.find?_some hr
  simpa [userIdIs] using this

/-- C6, counterexample.  The claim says the $2 credit is granted only
when the inviter already exists as a user; but on a fresh store, user 1
starting with the id of the nonexistent user 2 creates user 2 and
credits it $2. -/
theorem referral_credits_nonexistent_inviter :
    userExists initState 2 = false ∧
    fetch_user_balance (cmd_start initState 1 "/start 2") 2 = ⟨2, 1⟩ := by
  decide

/-- C6, amended: the $2 referral credit is granted at most once per new
user — if the user already exists the start flow changes nothing, and
running the start flow twice is the same as running it once — and is
granted exactly when the new user did not exist and the inviter id is
present, nonzero and different from the new user; the inviter need not
already exist (it is created, then credited).  Absent, zero or
self-referring inviter ids leave every observable balance unchanged. -/
theorem referral_credit_amended (st : DB) (uid : Nat) (text : String) :
    (userExists st uid = true → cmd_start st uid text = st) ∧
    (userExists st uid = false →
      userExists (cmd_start st uid text) uid = true ∧
      (∀ inv, startInviter text = some inv → inv ≠ 0 → inv ≠ uid →
        fetch_user_balance (cmd_start st uid text) inv =
          fetch_user_balance st inv + 2) ∧
      ((startInviter text = none ∨ startInviter text = some 0 ∨
          startInviter text = some uid) →
        ∀ u, fetch_user_balance (cmd_start st uid text) u =
          fetch_user_balance st u)) ∧
    (∀ text2, cmd_start (cmd_start st uid text) uid text2 =
      cmd_start st uid text) := by
  have hexists : ∀ (s : DB) (t : String), userExists s uid = true →
      cmd_start s uid t = s := by
    intro s t h
    unfold cmd_start
    rw [if_pos h]
    exact ensure_user_exists_of_exists s uid h
  have hnotex : userExists st uid = false →
      cmd_start st uid text =
        credit_referral_and_create_user st uid (startInviter text) := by
    intro h
    unfold cmd_start
    rw [if_neg (by simp [h])]
  have hself : userExists st uid = false →
      userExists (cmd_start st uid text) uid = true := by
    intro h
    rw [hnotex h]
    unfold credit_referral_and_create_user
    rw [if_neg (by simp [h])]
    cases hsi : startInviter text with
    | none =>
        show (st.users ++ [(⟨uid, 0, none⟩ : UserRow)]).any (userIdIs uid) = true
        simp [List.any_append, userIdIs]
    | some i =>
        dsimp only
        by_cases hcond : i ≠ 0 ∧ i ≠ uid
        · rw [if_pos hcond]
          show (((ensure_user_exists st i).users.map (fun r =>
              if r.user_id = i then { r with balance := r.balance + 2 } else r)) ++
              [(⟨uid, 0, some i⟩ : UserRow)]).any (userIdIs uid) = true
          simp [List.any_append, userIdIs]
        · rw [if_neg hcond]
          show (st.users ++ [(⟨uid, 0, none⟩ : UserRow)]).any (userIdIs uid) = true
          simp [List.any_append, userIdIs]
  refine ⟨hexists st text, ?_, ?_⟩
  · intro h
    refine ⟨hself h, ?_, ?_⟩
    · intro inv hsi hne0 hneu
      rw [hnotex h]
      unfold credit_referral_and_create_user
      rw [if_neg (by simp [h])]
      simp only [hsi]
      rw [if_pos ⟨hne0, hneu⟩]
      show balOf (((ensure_user_exists st inv).users.map (fun r =>
          if r.user_id = inv then { r with balance := r.balance + 2 } else r)) ++
          [⟨uid, 0, some inv⟩]) inv = balOf st.users inv + 2
      rw [balOf_append_zero _ _ rfl inv]
      rw [balOf_map _ _ (fun r => by by_cases hru : r.user_id = inv <;> simp [hru])]
      obtain ⟨r, hr, hru⟩ := find?_isSome_of_userExists
        (ensure_user_exists st inv) inv (userExists_ensure_self st inv)
      rw [hr]
      show (if r.user_id = inv then ({ r with balance := r.balance + 2 } : UserRow)
          else r).balance = balOf st.users inv + 2
      rw [if_pos hru]
      have hb : balOf st.users inv = r.balance := by
        have hfe := fetch_ensure st inv inv
        unfold fetch_user_balance at hfe
        rw [← hfe]
        unfold balOf
        rw [hr]
      rw [hb]
    · intro hcases u
      rw [hnotex h]
      unfold credit_referral_and_create_user
      rw [if_neg (by simp [h])]
      rcases hcases with hnone | h0 | huid
      · simp only [hnone]
        show balOf (st.users ++ [⟨uid, 0, none⟩]) u = balOf st.users u
        exact balOf_append_zero _ _ rfl u
      · simp only [h0]
        rw [if_neg (fun hcond => hcond.1 rfl)]
        show balOf (st.users ++ [⟨uid, 0, none⟩]) u = balOf st.users u
        exact balOf_append_zero _ _ rfl u
      · simp only [huid]
        rw [if_neg (fun hcond => hcond.2 rfl)]
        show balOf (st.users ++ [⟨uid, 0, none⟩]) u = balOf st.users u
        exact balOf_append_zero _ _ rfl u
  · intro text2
    by_cases h : userExists st uid
    · rw [hexists st text h]
      exact hexists st text2 h
    · have hf : userExists st uid = false := by
        cases hb : userExists st uid
        · rfl
        · exact absurd hb h
      exact hexists (cmd_start st uid text) text2 (hself hf)

/-- C6, amended, witness: starting twice changes nothing beyond the first
start; and on `demoState` the new user 3 starting with existing inviter 1
credits user 1 from 40 to 42 (computed as the program computes it). -/
theorem referral_credit_amended_witness :
    cmd_start (cmd_start initState 1 "/start 5") 1 "/start 7" =
      cmd_start initState 1 "/start 5" ∧
    fetch_user_balance (cmd_start demoState 3 "/start 1") 1 =
      fetch_user_balance demoState 1 + 2 := by
  refine ⟨(referral_credit_amended initState 1 "/start 5").2.2 "/start 7", ?_⟩
  exact (((referral_credit_amended demoState 3 "/start 1").2.1 (by decide)).2.1
    1 (by decide) (by decide) (by decide))

/-! ### C8 -/

/-- C8, counterexample.  The claim says upload fails with an
invalid-format error unless value and price parse as positive decimals;
but only parseability is checked: the admin upload line with value -5
and price -3 creates an `available` card carrying those negative
amounts. -/
theorem upload_accepts_nonpositive_value_price :
    (admin_process_upload 99 initState 99 "Brand,-5,-3,ABCDEF123456").2 =
      .uploaded 1 ∧
    (admin_process_upload 99 initState 99 "Brand,-5,-3,ABCDEF123456").1.giftcards =
      [⟨1, "Brand", ⟨-5, 1⟩, ⟨-3, 1⟩, "ABCDEF123456", some "ABCDEF", "available"⟩] := by
  decide

/-- C8, amended: upload silently refuses non-admin actors (no store
change); for an admin it fails with the bad-format reply unless the line
splits into four comma pieces whose value and price parse under
`float()` (sign unchecked — non-positive values are accepted); on
success it appends one card with status `available`, the given value and
price, and a bin prefix equal to the first 6 characters of the code, or
null when the code is shorter than 6. -/
theorem upload_amended (adminId : Nat) (st : DB) (actor : Nat) (text : String) :
    (actor ≠ adminId →
      admin_process_upload adminId st actor text = (st, .unauthorized)) ∧
    (∀ b v p c, pySplitCommaMax3 text = [b, v, p, c] →
      ((pyFloat? (pyStrip v) = none ∨ pyFloat? (pyStrip p) = none) →
        admin_process_upload adminId st adminId text = (st, .badFormat)) ∧
      (∀ value price, pyFloat? (pyStrip v) = some value →
        pyFloat? (pyStrip p) = some price →
        (admin_process_upload adminId st adminId text).2 = .uploaded st.nextCardId ∧
        (admin_process_upload adminId st adminId text).1.nextCardId =
          st.nextCardId + 1 ∧
        ∃ card, (admin_process_upload adminId st adminId text).1.giftcards =
            st.giftcards ++ [card] ∧
          card.id = st.nextCardId ∧ card.brand = pyStrip b ∧
          card.value = value ∧ card.price = price ∧ card.code = pyStrip c ∧
          card.status = "available" ∧
          (6 ≤ (pyStrip c).data.length →
            card.bin = some (String.mk ((pyStrip c).data.take 6))) ∧
          ((pyStrip c).data.length < 6 → card.bin = none))) := by
  constructor
  · intro hne
    unfold admin_process_upload
    rw [if_pos hne]
  · intro b v p c hsp
    constructor
    · intro hn
      unfold admin_process_upload
      rw [if_neg (fun hne => hne rfl)]
      simp only [hsp]
      rcases hn with hn | hn
      · simp only [hn]
      · simp only [hn]
        cases pyFloat? (pyStrip v) <;> rfl
    · intro value price hv hp
      unfold admin_process_upload
      rw [if_neg (fun hne => hne rfl)]
      simp only [hsp, hv, hp]
      refine ⟨by trivial, by trivial,
        ⟨⟨st.nextCardId, pyStrip b, value, price, pyStrip c,
          if 6 ≤ (pyStrip c).data.length then some (String.mk ((pyStrip c).data.take 6))
          else none,
          "available"⟩, by trivial, rfl, rfl, rfl, rfl, rfl, rfl, ?_, ?_⟩⟩
      · intro hlen
        rw [if_pos hlen]
      · intro hlen
        rw [if_neg (by omega)]

/-- C8, amended, witness: a non-admin upload is refused; a malformed
admin line is rejected with no store change; the well-formed line
`Visa,10,8,123456XYZ` is accepted as card 1. -/
theorem upload_amended_witness :
    admin_process_upload 99 initState 7 "whatever" = (initState, .unauthorized) ∧
    admin_process_upload 99 initState 99 "Visa,abc,8,123456XYZ" =
      (initState, .badFormat) ∧
    (admin_process_upload 99 initState 99 "Visa,10,8,123456XYZ").2 = .uploaded 1 := by
  refine ⟨(upload_amended 99 initState 7 "whatever").1 (by decide), ?_, ?_⟩
  · exact ((upload_amended 99 initState 99 "Visa,abc,8,123456XYZ").2
      "Visa" "abc" "8" "123456XYZ" (by decide)).1 (Or.inl (by decide))
  · exact (((upload_amended 99 initState 99 "Visa,10,8,123456XYZ").2
      "Visa" "10" "8" "123456XYZ" (by decide)).2 ⟨10, 1⟩ ⟨8, 1⟩
      (by decide) (by decide)).1

/-! ### C5 -/

theorem credit_referral_fields (st : DB) (nu : Nat) (inv : Option Nat) :
    (credit_referral_and_create_user st nu inv).giftcards = st.giftcards ∧
    (credit_referral_and_create_user st nu inv).nextCardId = st.nextCardId := by
  unfold credit_referral_and_create_user
  by_cases h : userExists st nu
  · rw [if_pos h]
    exact ⟨rfl, rfl⟩
  · rw [if_neg h]
    cases inv with
    | none => exact ⟨rfl, rfl⟩
    | some i =>
        dsimp only
        by_cases hc : i ≠ 0 ∧ i ≠ nu
        · rw [if_pos hc]
          exact ⟨ensure_user_exists_giftcards st i, ensure_user_exists_nextCardId st i⟩
        · rw [if_neg hc]
          exact ⟨rfl, rfl⟩

theorem cmd_start_fields (st : DB) (uid : Nat) (text : String) :
    (cmd_start st uid text).giftcards = st.giftcards ∧
    (cmd_start st uid text).nextCardId = st.nextCardId := by
  unfold cmd_start
  by_cases h : userExists st uid
  · rw [if_pos h]
    exact ⟨ensure_user_exists_giftcards st uid, ensure_user_exists_nextCardId st uid⟩
  · rw [if_neg h]
    exact credit_referral_fields st uid (startInviter text)

theorem handle_evidence_fields (st : DB) (depId : Nat) (text : String) :
    (handle_deposit_txid_amount st depId text).1.giftcards = st.giftcards ∧
    (handle_deposit_txid_amount st depId text).1.nextCardId = st.nextCardId := by
  unfold handle_deposit_txid_amount
  cases hsp : pySplitWs (pyStrip text) with
  | nil => exact ⟨rfl, rfl⟩
  | cons a t =>
      cases t with
      | nil => exact ⟨rfl, rfl⟩
      | cons b t2 =>
          dsimp only
          cases hf : pyFloat? b with
          | none => exact ⟨rfl, rfl⟩
          | some q => exact ⟨rfl, rfl⟩

theorem approve_fields (adminId : Nat) (st : DB) (actor depId : Nat) :
    (cb_approve_deposit adminId st actor depId).1.giftcards = st.giftcards ∧
    (cb_approve_deposit adminId st actor depId).1.nextCardId = st.nextCardId := by
  unfold cb_approve_deposit
  by_cases ha : actor ≠ adminId
  · rw [if_pos ha]
    exact ⟨rfl, rfl⟩
  · rw [if_neg ha]
    cases hf : fetch_deposit st depId with
    | none => exact ⟨rfl, rfl⟩
    | some dep =>
        dsimp only
        by_cases hs : dep.status ≠ "pending"
        · rw [if_pos hs]
          exact ⟨rfl, rfl⟩
        · rw [if_neg hs]
          exact ⟨by rw [add_balance_giftcards], by rw [add_balance_nextCardId]⟩

theorem reject_fields (adminId : Nat) (st : DB) (actor depId : Nat) :
    (cb_reject_deposit adminId st actor depId).1.giftcards = st.giftcards ∧
    (cb_reject_deposit adminId st actor depId).1.nextCardId = st.nextCardId := by
  unfold cb_reject_deposit
  by_cases ha : actor ≠ adminId
  · rw [if_pos ha]
    exact ⟨rfl, rfl⟩
  · rw [if_neg ha]
    cases hf : fetch_deposit st depId with
    | none => exact ⟨rfl, rfl⟩
    | some dep =>
        dsimp only
        by_cases hs : dep.status ≠ "pending"
        · rw [if_pos hs]
          exact ⟨rfl, rfl⟩
        · rw [if_neg hs]
          exact ⟨rfl, rfl⟩

theorem addbal_fields (adminId : Nat) (st : DB) (actor uid : Nat) (amt : PyNum) :
    (cb_addbal adminId st actor uid amt).1.giftcards = st.giftcards ∧
    (cb_addbal adminId st actor uid amt).1.nextCardId = st.nextCardId := by
  unfold cb_addbal
  by_cases ha : actor ≠ adminId
  · rw [if_pos ha]
    exact ⟨rfl, rfl⟩
  · rw [if_neg ha]
    exact ⟨add_balance_giftcards st uid amt, add_balance_nextCardId st uid amt⟩

theorem soldPersistsInv_of_fields (cid : Nat) (st st' : DB)
    (hg : st'.giftcards = st.giftcards) (hn : st'.nextCardId = st.nextCardId)
    (h : soldPersistsInv cid st) : soldPersistsInv cid st' := by
  unfold soldPersistsInv at *
  rw [hg, hn]
  exact h

/-- One inbound event preserves the sold-stays-sold invariant: no handler
ever sets a card status back to `available`, deletion only removes rows,
and a fresh upload mints a strictly larger id. -/
theorem soldPersistsInv_step (adminId cid : Nat) (st : DB) (op : BotOp)
    (h : soldPersistsInv cid st) : soldPersistsInv cid (stepBot adminId st op) := by
  cases op with
  | start uid text =>
      exact soldPersistsInv_of_fields cid st _
        (cmd_start_fields st uid text).1 (cmd_start_fields st uid text).2 h
  | deposit uid coin =>
      exact soldPersistsInv_of_fields cid st _ rfl rfl h
  | evidence depId text =>
      exact soldPersistsInv_of_fields cid st _
        (handle_evidence_fields st depId text).1 (handle_evidence_fields st depId text).2 h
  | approve actor depId =>
      exact soldPersistsInv_of_fields cid st _
        (approve_fields adminId st actor depId).1 (approve_fields adminId st actor depId).2 h
  | reject actor depId =>
      exact soldPersistsInv_of_fields cid st _
        (reject_fields adminId st actor depId).1 (reject_fields adminId st actor depId).2 h
  | addBal actor uid amt =>
      exact soldPersistsInv_of_fields cid st _
        (addbal_fields adminId st actor uid amt).1 (addbal_fields adminId st actor uid amt).2 h
  | upload actor line =>
      show soldPersistsInv cid (admin_process_upload adminId st actor line).1
      unfold admin_process_upload
      by_cases ha : actor ≠ adminId
      · rw [if_pos ha]
        exact h
      · rw [if_neg ha]
        cases hsp : pySplitCommaMax3 line with
        | nil => exact h
        | cons b t =>
            cases t with
            | nil => exact h
            | cons v t2 =>
                cases t2 with
                | nil => exact h
                | cons p t3 =>
                    cases t3 with
                    | nil => exact h
                    | cons c t4 =>
                        cases t4 with
                        | cons x t5 => exact h
                        | nil =>
                            dsimp only
                            cases hv : pyFloat? (pyStrip v) with
                            | none => exact h
                            | some value =>
                                cases hp : pyFloat? (pyStrip p) with
                                | none => exact h
                                | some price =>
                                    dsimp only
                                    constructor
                                    · intro cc hcc hccid
                                      rcases List.mem_append.1 hcc with hold | hnew
                                      · exact h.1 cc hold hccid
                                      · simp only [List.mem_singleton] at hnew
                                        subst hnew
                                        exact absurd hccid (Nat.ne_of_gt h.2)
                                    · exact Nat.lt_succ_of_lt h.2
  | deleteCard actor cardId =>
      show soldPersistsInv cid (cb_delete_card adminId st actor cardId).1
      unfold cb_delete_card
      by_cases ha : actor ≠ adminId
      · rw [if_pos ha]
        exact h
      · rw [if_neg ha]
        constructor
        · intro c hc hcid
          exact h.1 c (List.mem_filter.1 hc).1 hcid
        · exact h.2
  | markSold actor cardId =>
      show soldPersistsInv cid (cb_mark_sold adminId st actor cardId).1
      unfold cb_mark_sold
      by_cases ha : actor ≠ adminId
      · rw [if_pos ha]
        exact h
      · rw [if_neg ha]
        constructor
        · intro c hc hcid
          obtain ⟨c0, hc0, hgc⟩ := List.mem_map.1 hc
          by_cases h0 : c0.id = cardId
          · rw [← hgc]
            simp [h0]
          · rw [← hgc] at hcid ⊢
            simp only [if_neg h0] at hcid ⊢
            exact h.1 c0 hc0 hcid
        · exact h.2
  | buy uid cardId =>
      show soldPersistsInv cid (cb_buy st uid cardId).1
      unfold cb_buy
      cases hc : (ensure_user_exists st uid).giftcards.find? (fun c => c.id == cardId) with
      | none =>
          simp only [hc]
          exact soldPersistsInv_of_fields cid st _
            (ensure_user_exists_giftcards st uid) (ensure_user_exists_nextCardId st uid) h
      | some card =>
          simp only [hc]
          by_cases hav : card.status ≠ "available"
          · rw [if_pos hav]
            exact soldPersistsInv_of_fields cid st _
              (ensure_user_exists_giftcards st uid) (ensure_user_exists_nextCardId st uid) h
          · rw [if_neg hav]
            by_cases hbal : fetch_user_balance (ensure_user_exists st uid) uid < card.price
            · rw [if_pos hbal]
              exact soldPersistsInv_of_fields cid st _
                (ensure_user_exists_giftcards st uid) (ensure_user_exists_nextCardId st uid) h
            · rw [if_neg hbal]
              have hg : ∀ c ∈ (ensure_user_exists st uid).giftcards.map (fun c =>
                  if c.id = cardId then { c with status := "sold" } else c),
                  c.id = cid → c.status = "sold" := by
                intro c hcm hcid
                obtain ⟨c0, hc0, hgc⟩ := List.mem_map.1 hcm
                by_cases h0 : c0.id = cardId
                · rw [← hgc]
                  simp [h0]
                · rw [← hgc] at hcid ⊢
                  simp only [if_neg h0] at hcid ⊢
                  rw [ensure_user_exists_giftcards] at hc0
                  exact h.1 c0 hc0 hcid
              have hn : cid < (ensure_user_exists st uid).nextCardId := by
                rw [ensure_user_exists_nextCardId]
                exact h.2
              cases ho : (ensure_user_exists st uid).orders with
              | none =>
                  simp only [ho]
                  exact ⟨hg, hn⟩
              | some l =>
                  simp only [ho]
                  exact ⟨hg, hn⟩

/-- The sold-stays-sold invariant holds after any sequence of inbound
events. -/
theorem soldPersistsInv_run (adminId cid : Nat) (st : DB) (ops : List BotOp)
    (h : soldPersistsInv cid st) : soldPersistsInv cid (runBot adminId st ops) := by
  induction ops generalizing st with
  | nil => exact h
  | cons op t ih => exact ih (stepBot adminId st op) (soldPersistsInv_step adminId cid st op h)

/-- C5: once a card is `sold` it never becomes `available` again under
any sequence of inbound events (there is no handler that sets a status
back to `available`; only deletion removes the row, and uploads mint
fresh ids), and buying a `sold` card answers not-available and changes
nothing observable: cards, deposits, orders and every balance are
untouched, and if the buyer row already exists the store is literally
unchanged.  The hypotheses are the well-formedness facts true of every
reachable store: all rows with the card id are `sold`, the id is below
the AUTOINCREMENT counter, and such a row exists. -/
theorem sold_item_stays_sold (adminId : Nat) (st : DB) (cid : Nat)
    (hs : ∀ c ∈ st.giftcards, c.id = cid → c.status = "sold")
    (hlt : cid < st.nextCardId)
    (hex : ∃ c ∈ st.giftcards, c.id = cid) :
    (∀ ops, ∀ c ∈ (runBot adminId st ops).giftcards, c.id = cid →
      c.status = "sold") ∧
    (∀ uid, (cb_buy st uid cid).2 = .notAvailable ∧
      (cb_buy st uid cid).1.giftcards = st.giftcards ∧
      (cb_buy st uid cid).1.deposits = st.deposits ∧
      (cb_buy st uid cid).1.orders = st.orders ∧
      (∀ u, fetch_user_balance (cb_buy st uid cid).1 u = fetch_user_balance st u) ∧
      (userExists st uid = true → (cb_buy st uid cid).1 = st)) := by
  constructor
  · intro ops
    exact (soldPersistsInv_run adminId cid st ops ⟨hs, hlt⟩).1
  · intro uid
    obtain ⟨c0, hc0, hcid0⟩ := hex
    have hfs : ∃ card, (ensure_user_exists st uid).giftcards.find?
        (fun c => c.id == cid) = some card := by
      have hsome : ((ensure_user_exists st uid).giftcards.find?
          (fun c => c.id == cid)).isSome := by
        rw [ensure_user_exists_giftcards]
        exact List.find?_isSome.2 ⟨c0, hc0, by simp [hcid0]⟩
      exact Option.isSome_iff_exists.1 hsome
    obtain ⟨card, hcard⟩ := hfs
    have hmemc : card ∈ st.giftcards := by
      have := List.mem_of_find?_eq_some hcard
      rwa [ensure_user_exists_giftcards] at this
    have hcid : card.id = cid := by
      have := List.find?_some hcard
      simpa using this
    have hsold : card.status = "sold" := hs card hmemc hcid
    have hnav : card.status ≠ "available" := by
      rw [hsold]
      decide
    unfold cb_buy
    simp only [hcard]
    rw [if_pos hnav]
    exact ⟨rfl, ensure_user_exists_giftcards st uid, ensure_user_exists_deposits st uid,
      ensure_user_exists_orders st uid, fetch_ensure st uid,
      fun hu => ensure_user_exists_of_exists st uid hu⟩

/-- C5, witness: from `soldDemoState` (card 1 sold), after a further
admin mark-sold, an upload and a buy attempt, every card with id 1 is
still `sold`; and buying the sold card 1 directly answers not-available
with the card list unchanged. -/
theorem sold_item_stays_sold_witness :
    (∀ c ∈ (runBot 99 soldDemoState
        [.markSold 99 1, .upload 99 "Visa,10,5,123456789", .buy 2 1]).giftcards,
      c.id = 1 → c.status = "sold") ∧
    (cb_buy soldDemoState 2 1).2 = .notAvailable ∧
    (cb_buy soldDemoState 2 1).1.giftcards = soldDemoState.giftcards := by
  have h := sold_item_stays_sold 99 soldDemoState 1 (by decide) (by decide) (by decide)
  exact ⟨h.1 [.markSold 99 1, .upload 99 "Visa,10,5,123456789", .buy 2 1],
    (h.2 2).1, (h.2 2).2.1⟩
